import Mathlib

/-!
Verification of the LunarCrush adapter (JS) against its specification.

The development shallowly embeds the adapter's source:
* `LunarCrushAuth.detectApiTier` / `canAccessEndpoint` (tier detection, free-path templates),
* the request pipeline `_makeRequest` / `_getFallbackData` / `_getMockData`,
* the helpers (`normalizeCoinIdentifier`),
* the aggregation functions (`_calculateAverageSentiment`, `_calculateTotalSocialVolume`,
  `_calculateAverageEngagement`),
* `getEcosystemCoins` and `getTopicSentiment`.

Effectful collaborators (HTTP transport, mock generator randomness, clock) are modelled as
oracles in an environment record; mutable instance fields (cache, memoized tier) are modelled
as explicit state threading.  Machine/JS numbers appearing in the claims are modelled as
`Nat`/`Int`/`ℚ` as appropriate.
-/

namespace LunarCrush

/-- JSON-like values returned by the upstream API (JS objects/arrays/primitives).
Numbers are modelled as integers: no claim depends on fractional response bodies. -/
inductive Value where
  | vnull : Value
  | vbool (b : Bool) : Value
  | vnum (n : Int) : Value
  | vstr (s : String) : Value
  | varr (xs : List Value) : Value
  | vobj (fields : List (String × Value)) : Value

/-- JS truthiness of a `Value` (`null`, `false`, `0`, `""` are falsy; objects and arrays,
including the empty ones, are truthy). -/
def valueTruthy : Value → Bool
  | Value.vnull => false
  | Value.vbool b => b
  | Value.vnum n => n != 0
  | Value.vstr s => s ≠ ""
  | Value.varr _ => true
  | Value.vobj _ => true

/-- JS property access `v[k]` on an object, `none` when the value is not an object
or lacks the field (i.e. `undefined`). -/
def getProp (v : Value) (k : String) : Option Value :=
  match v with
  | Value.vobj fields => (fields.find? (fun f => f.1 = k)).map (fun f => f.2)
  | _ => none

/-- Query-parameter values used by the adapter (strings and non-negative integers). -/
inductive PValue where
  | pstr (s : String) : PValue
  | pnat (n : Nat) : PValue
deriving DecidableEq

/-- Query parameters: a JS object in insertion order. -/
def Params : Type := List (String × PValue)

instance : DecidableEq Params := by unfold Params; infer_instance

/-- Escape a string for JSON output (backslash and double quote). -/
def jsonEscape (s : String) : String :=
  String.mk (s.toList.foldr
    (fun c acc =>
      if c = '\\' then '\\' :: '\\' :: acc
      else if c = '"' then '\\' :: '"' :: acc
      else c :: acc) [])

/-- `JSON.stringify` of a parameter value. -/
def pvalueStringify : PValue → String
  | PValue.pstr s => "\"" ++ jsonEscape s ++ "\""
  | PValue.pnat n => toString n

/-- `JSON.stringify` of a parameter object (insertion order, as JS does). -/
def jsonStringify (p : Params) : String :=
  "\x7b" ++ String.intercalate (",")
      (p.map (fun kv => "\"" ++ jsonEscape kv.1 ++ "\":" ++ pvalueStringify kv.2))
    ++ "\x7d"

/-- `needle` occurs as a contiguous substring of `hay` (JS `String.prototype.includes`). -/
def listContainsSub (needle : List Char) : List Char → Bool
  | [] => needle.isEmpty
  | c :: rest => needle.isPrefixOf (c :: rest) || listContainsSub needle rest

/-- JS `hay.includes(needle)`. -/
def containsSub (needle hay : String) : Bool :=
  listContainsSub needle.toList hay.toList

/-! ## Transport model

The HTTP client (`axios`) is modelled as an oracle from URL and query parameters to an
outcome: either a resolved response (status plus JSON body) or a rejected error optionally
carrying a response status (`error.response.status`; `none` models a network-level failure
with no response).  The `tag` field gives errors an identity beyond their status, so that
"the error is surfaced unchanged" is a non-trivial statement. -/

/-- A rejected HTTP error as surfaced by the transport. -/
structure NetErr where
  respStatus : Option Nat
  tag : Nat
deriving DecidableEq

/-- Outcome of one transport call. -/
inductive NetRes where
  | ok (status : Nat) (data : Value) : NetRes
  | err (e : NetErr) : NetRes

/-- One recorded transport invocation (URL, query parameters, outcome). -/
structure NetCall where
  url : String
  params : Params
  res : NetRes

/-- API access tiers (stored as strings in the source). -/
inductive Tier where
  | paid : Tier
  | free : Tier
  | invalid : Tier
  | unknown : Tier
deriving DecidableEq

/-- Mutable fields of the `LunarCrushAuth` instance (`this.apiTier`, `this.lastTierCheck`).
`none` models the initial `null`. -/
structure AuthState where
  apiTier : Option Tier
  lastTierCheck : Option Nat
deriving DecidableEq

/-- Mutable state threaded through the adapter: the cache contents (association list,
first match wins, so insertion models overwrite), the auth memoization fields, and a log
of transport invocations (used to state "no network call" properties). -/
structure St where
  cache : List (String × Value)
  auth : AuthState
  netLog : List NetCall

/-- Environment: construction options and effectful collaborators.
`apiKey` is `this.apiKey` (absent modelled as `none`); `now` is `Date.now()`;
`net` is the HTTP transport oracle; the three `mock*` oracles model the random
mock-data generators (their outputs are opaque to every claim). -/
structure Env where
  apiKey : Option String
  now : Nat
  net : String → Params → NetRes
  mockCoinsList : Nat → Value
  mockCoinData : String → Value
  mockTopicData : String → Value

/-- `this.baseUrl`. -/
def baseUrl : String := "https://lunarcrush.com/api4"

/-- JS truthiness of `this.apiKey` (absent or empty string is falsy). -/
def keyTruthy (env : Env) : Bool :=
  match env.apiKey with
  | none => false
  | some s => s ≠ ""

/-- `this.tierCheckInterval` = 24 hours in milliseconds. -/
def tierCheckInterval : Nat := 24 * 60 * 60 * 1000

/-- URL of the paid probe endpoint used by `detectApiTier`. -/
def probeUrl : String := "https://lunarcrush.com/api4/public/coins/list/v2"

/-- Parameters of the probe request (`{ limit: 1 }`). -/
def probeParams : Params := [("limit", PValue.pnat 1)]

/-- Cache lookup (`this.cache.get(key)`). -/
def cacheGet (cache : List (String × Value)) (k : String) : Option Value :=
  (cache.find? (fun e => e.1 = k)).map (fun e => e.2)

/-- Cache store (`this.cache.set(key, value)`): prepend; lookups take the first match. -/
def cacheSet (cache : List (String × Value)) (k : String) (v : Value) :
    List (String × Value) :=
  (k, v) :: cache

/-- Append one transport invocation to the log. -/
def logCall (st : St) (url : String) (p : Params) (r : NetRes) : St :=
  { st with netLog := st.netLog ++ [⟨url, p, r⟩] }

/-! ## Free-path template matching (`canAccessEndpoint`)

The source builds, for each free-tier template, the regex
`new RegExp('^' + template.replace(/:[^\/]+/g, '[^\/]+') + '$')` and tests the endpoint.
We embed this by parsing the template into literal-character and wildcard tokens
(the replace step) and matching tokens against the endpoint with full backtracking
(the regex `[^/]+` semantics: one or more non-separator characters). -/

/-- One token of a compiled path template. -/
inductive Tok where
  | lit (c : Char) : Tok
  | wild : Tok
deriving DecidableEq

/-- Worker for `parseTemplate`.  The flag records whether we are inside the tail of a
matched `:[^\/]+` run (those characters are absorbed by the emitted wildcard, greedily,
exactly as the regex's maximal match absorbs them). -/
def parseTemplateAux : Bool → List Char → List Tok
  | _, [] => []
  | true, c :: rest =>
    if c = '/' then Tok.lit '/' :: parseTemplateAux false rest
    else parseTemplateAux true rest
  | false, ':' :: c :: rest =>
    if c ≠ '/' then Tok.wild :: parseTemplateAux true rest
    else Tok.lit ':' :: parseTemplateAux false (c :: rest)
  | false, ':' :: [] => [Tok.lit ':']
  | false, c :: rest => Tok.lit c :: parseTemplateAux false rest

/-- Compile a template string: each maximal run `:x...x` (a colon followed by at least one
non-`/` character) becomes a wildcard, as `template.replace(/:[^\/]+/g, '[^\/]+')` does;
every other character is a literal. -/
def parseTemplate (t : List Char) : List Tok :=
  parseTemplateAux false t

/-- Anchored matching of compiled tokens against a path.  A wildcard consumes one or more
non-`/` characters (with backtracking, as the regex `[^\/]+` does). -/
def matchTokens : List Tok → List Char → Bool
  | [], [] => true
  | [], _ :: _ => false
  | Tok.lit _ :: _, [] => false
  | Tok.wild :: _, [] => false
  | Tok.lit c :: ts, p :: ps => c = p && matchTokens ts ps
  | Tok.wild :: ts, p :: ps =>
    decide (p ≠ '/') && (matchTokens ts ps || matchTokens (Tok.wild :: ts) ps)

/-- The free-tier endpoint templates (`this.endpoints.free`). -/
def freeEndpoints : List String :=
  ["/public/topic/:topic/v1", "/public/coins/list/v1", "/public/categories/list/v1"]

/-- The paid endpoint templates (`this.endpoints.paid`). -/
def paidEndpoints : List String :=
  ["/public/coins/list/v2", "/public/coins/:coin/time-series/v2"]

/-- Whether `endpoint` matches the compiled regex of `template`. -/
def matchesTemplate (template endpoint : String) : Bool :=
  matchTokens (parseTemplate template.toList) endpoint.toList

/-- `this.endpoints.free.some(...)`: the endpoint matches some free-tier template. -/
def freeListMatch (endpoint : String) : Bool :=
  freeEndpoints.any (fun t => matchesTemplate t endpoint)

/-! ## Tier detection (`detectApiTier`) -/

/-- The guard `this.apiTier && this.lastTierCheck && (now - this.lastTierCheck <
this.tierCheckInterval)`: both memo fields truthy (a stored timestamp `0` is falsy in JS)
and the last check fresh. -/
def memoFresh (env : Env) (a : AuthState) : Bool :=
  match a.apiTier, a.lastTierCheck with
  | some _, some c => decide (c ≠ 0) && decide (env.now - c < tierCheckInterval)
  | _, _ => false

/-- Classify the probe outcome exactly as the source's `try`/`catch` does:
status 200 → paid, any other resolved status → unknown; rejected with response status
402 → free, 401 → invalid, any other status or no response → unknown. -/
def tierOfProbe : NetRes → Tier
  | NetRes.ok s _ => if s = 200 then Tier.paid else Tier.unknown
  | NetRes.err e =>
    match e.respStatus with
    | some s =>
      if s = 402 then Tier.free
      else if s = 401 then Tier.invalid
      else Tier.unknown
    | none => Tier.unknown

/-- The non-memoized part of `detectApiTier`: the missing-key branch sets only the tier
(the source returns before `this.lastTierCheck = now`); the probe branch issues one GET,
classifies the outcome and updates both memo fields. -/
def detectSlow (env : Env) (st : St) : Tier × St :=
  if keyTruthy env = false then
    (Tier.invalid,
      { st with auth := { apiTier := some Tier.invalid,
                          lastTierCheck := st.auth.lastTierCheck } })
  else
    let r := env.net probeUrl probeParams
    let t := tierOfProbe r
    let st₁ := logCall st probeUrl probeParams r
    (t, { st₁ with auth := { apiTier := some t, lastTierCheck := some env.now } })

/-- `detectApiTier()`: return the memoized tier when fresh, otherwise run `detectSlow`. -/
def detectApiTier (env : Env) (st : St) : Tier × St :=
  match st.auth.apiTier, st.auth.lastTierCheck with
  | some t, some c =>
    if decide (c ≠ 0) && decide (env.now - c < tierCheckInterval) then (t, st)
    else detectSlow env st
  | _, _ => detectSlow env st

/-- `canAccessEndpoint(endpoint)`: detect the tier if none is memoized
(`if (!this.apiTier)`), then: paid → true, invalid/unknown → false, otherwise test the
free-tier templates. -/
def canAccessEndpoint (env : Env) (endpoint : String) (st : St) : Bool × St :=
  let st₁ :=
    match st.auth.apiTier with
    | some _ => st
    | none => (detectApiTier env st).2
  match st₁.auth.apiTier with
  | some Tier.paid => (true, st₁)
  | some Tier.invalid => (false, st₁)
  | some Tier.unknown => (false, st₁)
  | some Tier.free => (freeListMatch endpoint, st₁)
  | none => (freeListMatch endpoint, st₁)

/-! ## Request pipeline (`_makeRequest`, `_getFallbackData`, `_getMockData`)

`_getFallbackData` may re-enter `_makeRequest` on the substituted free endpoint
`/public/coins/list/v1`; that endpoint never contains `/coins/list/v2`, so the real
recursion depth is at most one substitution.  We embed the pipeline structurally with a
fuel bound: `makeRequest (fuel+1)` hands `_getFallbackData` the genuine recursive call at
fuel `fuel`, and at fuel `0` the substitution slot is a stub that fails without touching
the state (unreachable from `request`, which runs at fuel 1, because the substituted
endpoint fails the marker test).  `request = makeRequest 1` is therefore exactly the
source's `_makeRequest`. -/

/-- The cache key `` `${endpoint}_${JSON.stringify(params)}` ``. -/
def cacheKey (endpoint : String) (params : Params) : String :=
  endpoint ++ "_" ++ jsonStringify params

/-- Lookup of a query parameter by name. -/
def lookupParam (p : Params) (k : String) : Option PValue :=
  (p.find? (fun kv => kv.1 = k)).map (fun kv => kv.2)

/-- `params.limit || 50` as a coin count for the mock generator (the adapter only ever
passes numeric limits; a falsy limit — absent or `0` — defaults to 50). -/
def limitOr50 (p : Params) : Nat :=
  match lookupParam p ("limit") with
  | some (PValue.pnat n) => if n = 0 then 50 else n
  | _ => 50

/-- `endpoint.split('/').slice(-2)[0]`: the second-to-last slash-separated part. -/
def secondLastSeg (endpoint : String) : String :=
  match (endpoint.splitOn ("/")).reverse with
  | _ :: x :: _ => x
  | [x] => x
  | [] => ""

/-- The substring test `_getFallbackData` uses to find a free variant. -/
def coinsListV2Marker : String := "/coins/list/v2"

/-- The free variant substituted for the paid coins list. -/
def freeCoinsListEndpoint : String := "/public/coins/list/v1"

/-- `_getMockData(endpoint, params)`: dispatch on path shape to the mock generators. -/
def getMockData (env : Env) (endpoint : String) (params : Params) : Value :=
  if containsSub ("/coins/list") endpoint then env.mockCoinsList (limitOr50 params)
  else if containsSub ("/coins/") endpoint then env.mockCoinData (secondLastSeg endpoint)
  else if containsSub ("/topic/") endpoint then env.mockTopicData (secondLastSeg endpoint)
  else Value.varr []

/-- The structured fallback envelope
`{ data: mock, meta: { using_mock_data: true, original_endpoint: endpoint } }`. -/
def mkEnvelope (env : Env) (endpoint : String) (params : Params) : Value :=
  Value.vobj
    [("data", getMockData env endpoint params),
     ("meta", Value.vobj
        [("using_mock_data", Value.vbool true),
         ("original_endpoint", Value.vstr endpoint)])]

/-- Whether a value is shaped like the fallback envelope
(`meta.using_mock_data === true`). -/
def isMockEnvelope (v : Value) : Bool :=
  match getProp v ("meta") with
  | some m =>
    match getProp m ("using_mock_data") with
    | some (Value.vbool true) => true
    | _ => false
  | none => false

/-- `_getFallbackData(endpoint, params)`, with the recursive
`this._makeRequest('/public/coins/list/v1', params)` call abstracted as `inner`
(already applied to the substituted endpoint): if the endpoint has the paid coins-list
marker, try the free variant and fall back to the mock envelope only when it throws;
otherwise produce the mock envelope directly. -/
def getFallbackDataF (inner : Params → St → Except NetErr Value × St) (env : Env)
    (endpoint : String) (params : Params) (st : St) : Except NetErr Value × St :=
  if containsSub coinsListV2Marker endpoint then
    match inner params st with
    | (Except.ok v, st') => (Except.ok v, st')
    | (Except.error _, st') => (Except.ok (mkEnvelope env endpoint params), st')
  else
    (Except.ok (mkEnvelope env endpoint params), st)

/-- Cache-miss part of `_makeRequest`: tier check, then the GET; on success store the
body and return it; on a 402/429 failure fall back; otherwise rethrow the error. -/
def requestMiss (inner : Params → St → Except NetErr Value × St) (env : Env)
    (endpoint : String) (params : Params) (st : St) : Except NetErr Value × St :=
  match canAccessEndpoint env endpoint st with
  | (canAccess, st₁) =>
    if canAccess = false then
      getFallbackDataF inner env endpoint params st₁
    else
      let url := baseUrl ++ endpoint
      let r := env.net url params
      let st₂ := logCall st₁ url params r
      match r with
      | NetRes.ok _ data =>
        (Except.ok data, { st₂ with cache := cacheSet st₂.cache (cacheKey endpoint params) data })
      | NetRes.err e =>
        if e.respStatus = some 402 ∨ e.respStatus = some 429 then
          getFallbackDataF inner env endpoint params st₂
        else
          (Except.error e, st₂)

/-- `_makeRequest` body: return a truthy cached value immediately, otherwise run the
cache-miss path. -/
def makeRequestCore (inner : Params → St → Except NetErr Value × St) (env : Env)
    (endpoint : String) (params : Params) (st : St) : Except NetErr Value × St :=
  match cacheGet st.cache (cacheKey endpoint params) with
  | some v => if valueTruthy v then (Except.ok v, st) else requestMiss inner env endpoint params st
  | none => requestMiss inner env endpoint params st

/-- Error used by the unreachable fuel-exhausted substitution stub. -/
def fuelErr : NetErr := { respStatus := none, tag := 0 }

/-- Fuel-bounded `_makeRequest`. -/
def makeRequest : Nat → Env → String → Params → St → Except NetErr Value × St
  | 0, env, endpoint, params, st =>
    makeRequestCore (fun _ s => (Except.error fuelErr, s)) env endpoint params st
  | Nat.succ fuel, env, endpoint, params, st =>
    makeRequestCore (fun p s => makeRequest fuel env freeCoinsListEndpoint p s)
      env endpoint params st

/-- `_makeRequest(endpoint, params)` (fuel 1 realizes the source's one-level
substitution exactly). -/
def request (env : Env) (endpoint : String) (params : Params) (st : St) :
    Except NetErr Value × St :=
  makeRequest 1 env endpoint params st

/-- The per-topic path `` `/public/topic/${topic}/v1` ``. -/
def topicPath (topic : String) : String :=
  "/public/topic/" ++ topic ++ "/v1"

/-- `getTopicSentiment(topic, days = 7)`: requests the per-topic path (with no query
parameters — `days` is accepted but unused by the source) and projects `result.data`. -/
def getTopicSentiment (env : Env) (topic : String) (days : Nat) (st : St) :
    Except NetErr (Option Value) × St :=
  match request env (topicPath topic) [] st with
  | (r, st') => (r.map (fun v => getProp v ("data")), st')

/-! ## Helpers (`normalizeCoinIdentifier`) -/

/-- Membership in `A`–`Z` (code points 65–90; `Char` order is code-point order). -/
def isUpperAZ (c : Char) : Bool :=
  65 ≤ c.toNat ∧ c.toNat ≤ 90

/-- ASCII lowering, as JS `toLowerCase` acts on the characters appearing here. -/
def jsLower (c : Char) : Char :=
  if isUpperAZ c then Char.ofNat (c.toNat + 32) else c

/-- Whitespace recognized by the regex `\s` (the ASCII part relevant to this model). -/
def isWsJS (c : Char) : Bool :=
  c = ' ' ∨ c = '\t' ∨ c = '\n' ∨ c = '\x0d' ∨ c = '\x0b' ∨ c = '\x0c'

/-- Membership in the character class `[A-Z0-9]` (digits are code points 48–57). -/
def isTickerChar (c : Char) : Bool :=
  isUpperAZ c || (48 ≤ c.toNat ∧ c.toNat ≤ 57)

/-- The anchored test `/^[A-Z0-9]{2,6}$/.test(s)`. -/
def isTicker (s : String) : Bool :=
  2 ≤ s.length ∧ s.length ≤ 6 ∧ s.toList.all isTickerChar

/-- Lowercase a string character-wise. -/
def lowerStr (s : String) : String :=
  String.mk (s.toList.map jsLower)

/-- `s.toLowerCase().replace(/\s+/g, '')`. -/
def lowerNoWs (s : String) : String :=
  String.mk ((s.toList.map jsLower).filter (fun c => isWsJS c = false))

/-- `normalizeCoinIdentifier(coin)`: falsy input (absent or empty) gives the empty
string; an uppercase 2–6 character ticker is returned unchanged; anything else is
lowercased with all whitespace removed.  `none` models an absent argument. -/
def normalizeCoinIdentifier (coin : Option String) : String :=
  match coin with
  | none => ""
  | some s =>
    if s = "" then ""
    else if isTicker s then s
    else lowerNoWs s

/-! ## Aggregations over time-series data -/

/-- One time-series point, with the fields the aggregations read (`gs`, `sv`, `sc`).
Scores and volumes are modelled as rationals, the contributor count as a natural
number; `none` models an absent field. -/
structure Point where
  gs : Option ℚ
  sv : Option ℚ
  sc : Option ℕ

/-- `d.gs || 0` (for numbers, falsy means absent or zero, both giving `0`). -/
def gsOr0 (d : Point) : ℚ := d.gs.getD 0

/-- `d.sv || 0`. -/
def svOr0 (d : Point) : ℚ := d.sv.getD 0

/-- `d.sc || 1`: absent or zero contributor count becomes 1. -/
def scOr1 (d : Point) : ℕ :=
  match d.sc with
  | none => 1
  | some n => if n = 0 then 1 else n

/-- `_calculateAverageSentiment`: mean of the galaxy scores, 0 on an empty sequence. -/
def calculateAverageSentiment (l : List Point) : ℚ :=
  if l.length = 0 then 0
  else ((l.map gsOr0).sum) / (l.length : ℚ)

/-- `_calculateTotalSocialVolume`: sum of social volumes, 0 on an empty sequence. -/
def calculateTotalSocialVolume (l : List Point) : ℚ :=
  if l.length = 0 then 0
  else (l.map svOr0).sum

/-- The per-point engagement `socialVolume / socialContributors` with the falsy
contributor count already replaced by 1. -/
def engagementOf (d : Point) : ℚ :=
  svOr0 d / (scOr1 d : ℚ)

/-- `_calculateAverageEngagement`: mean of per-point engagements, 0 on an empty
sequence. -/
def calculateAverageEngagement (l : List Point) : ℚ :=
  if l.length = 0 then 0
  else ((l.map engagementOf).sum) / (l.length : ℚ)

/-! ## `getEcosystemCoins` -/

/-- A coin's `categories` field as it reaches the filter: absent/falsy, a native array
of strings, or a single string. -/
inductive Categories where
  | absent : Categories
  | clist (cs : List String) : Categories
  | cstr (s : String) : Categories
deriving DecidableEq

/-- A coin record, as far as the ecosystem filter reads it. -/
structure Coin where
  sym : String
  categories : Categories
deriving DecidableEq

/-- The fixed ecosystem-alias table. -/
def categoryMap : List (String × String) :=
  [("ai-agents", "ai"), ("defai", "defi"), ("solana", "solana"),
   ("ethereum", "ethereum"), ("bitcoin", "bitcoin")]

/-- `categoryMap[ecosystem] || ecosystem`. -/
def mapCategory (ecosystem : String) : String :=
  ((categoryMap.find? (fun kv => kv.1 = ecosystem)).map (fun kv => kv.2)).getD ecosystem

/-- `String(categories).split(',').map(c => c.trim())`. -/
def splitTrim (s : String) : List String :=
  (s.splitOn (",")).map (fun c => c.trim)

/-- The filter predicate: a falsy `categories` is rejected; an array is scanned
directly, a string is split on commas and trimmed; membership is case-insensitive. -/
def coinMatchesCategory (category : String) (coin : Coin) : Bool :=
  match coin.categories with
  | Categories.absent => false
  | Categories.clist cs => cs.any (fun c => lowerStr c = lowerStr category)
  | Categories.cstr s =>
    if s = "" then false
    else (splitTrim s).any (fun c => lowerStr c = lowerStr category)

/-- `getEcosystemCoins(ecosystem, limit = 15)`, with the `this.getCoinsList(200)` fetch
abstracted as the collaborator `listCoins` (called at 200, exactly as the source does):
map the alias, fetch, filter by category, truncate to `limit`; a fetch error is logged
and rethrown. -/
def getEcosystemCoins (listCoins : Nat → Except NetErr (List Coin)) (ecosystem : String)
    (limit : Nat) : Except NetErr (List Coin) :=
  let category := mapCategory ecosystem
  match listCoins 200 with
  | Except.error e => Except.error e
  | Except.ok allCoins =>
    Except.ok ((allCoins.filter (fun coin => coinMatchesCategory category coin)).take limit)

/-! ## Predicates and concrete scenarios used by the theorems -/

/-- Literal tokens of a character list. -/
def litToks (l : List Char) : List Tok := l.map Tok.lit

/-- The free-tier access predicate, written from the specification's words: a path is
free-tier accessible exactly when it is one of the two literal free paths, or is the
topic template with the variable segment replaced by a non-empty run of non-separator
characters — anchored at both ends, so no partial or trailing-path matches. -/
def freeAccessSpec (path : String) : Prop :=
  (∃ s : String, s ≠ "" ∧ (∀ c ∈ s.toList, c ≠ '/') ∧
      path = "/public/topic/" ++ s ++ "/v1") ∨
  path = "/public/coins/list/v1" ∨
  path = "/public/categories/list/v1"

/-- The access decision `canAccessEndpoint` makes once a tier is in hand: paid → all
endpoints, invalid/unknown → none, free (or, unreachably, still none) → the free-template
test. -/
def tierAccess (ot : Option Tier) (endpoint : String) : Bool :=
  match ot with
  | some Tier.paid => true
  | some Tier.invalid => false
  | some Tier.unknown => false
  | some Tier.free => freeListMatch endpoint
  | none => freeListMatch endpoint

/-- The state after `canAccessEndpoint`'s initial `if (!this.apiTier) detectApiTier()`
step. -/
def accessState (env : Env) (st : St) : St :=
  match st.auth.apiTier with
  | some _ => st
  | none => (detectApiTier env st).2

/-- The truthy-cache-hit test of `_makeRequest` (`if (cachedData) return cachedData`):
true exactly when the cache holds a truthy value at the key. -/
def truthyHit (cache : List (String × Value)) (k : String) : Bool :=
  match cacheGet cache k with
  | some v => valueTruthy v
  | none => false

/-- The transport never returns a body shaped like the adapter's own fallback envelope
(a sanity assumption on the upstream API, used to phrase cache-purity). -/
def CleanNet (env : Env) : Prop :=
  ∀ url q s d, env.net url q = NetRes.ok s d → isMockEnvelope d = false

/-- Pipeline step invariant for a run with parameters `p`: the transport log only grows;
every new logged call carries either `p` or the probe's parameters; and every cache
entry is either inherited or the body of some logged successful response. -/
structure StepInv (p : Params) (st st' : St) : Prop where
  log_mono : ∃ d, st'.netLog = st.netLog ++ d
  log_params : ∀ c ∈ st'.netLog, c ∈ st.netLog ∨ c.params = p ∨ c.params = probeParams
  cache_from : ∀ k v, (k, v) ∈ st'.cache →
    (k, v) ∈ st.cache ∨ ∃ c ∈ st'.netLog, ∃ s, c.res = NetRes.ok s v

/-- Concrete environment with no API key configured (`options.apiKey` absent); its
transport always fails without a response. -/
def envNoKey : Env :=
  { apiKey := none, now := 1000,
    net := fun _ _ => NetRes.err { respStatus := none, tag := 7 },
    mockCoinsList := fun _ => Value.vstr ("mockList"),
    mockCoinData := fun _ => Value.vstr ("mockCoin"),
    mockTopicData := fun t => Value.vstr t }

/-- Fresh adapter state: empty cache, no memoized tier, no calls made. -/
def stInit : St :=
  { cache := [], auth := { apiTier := none, lastTierCheck := none }, netLog := [] }

/-- State with a freshly memoized `paid` tier. -/
def stPaid : St :=
  { cache := [], auth := { apiTier := some Tier.paid, lastTierCheck := some 1000 },
    netLog := [] }

/-- The full paid coins-list endpoint path. -/
def coinsListV2Path : String := "/public/coins/list/v2"

/-- Concrete environment whose transport rejects the paid coins list with HTTP 402 and
answers every other URL with status 200 and the body `"real"`. -/
def envFree402 : Env :=
  { apiKey := some ("k"), now := 1000,
    net := fun url _ =>
      if url = baseUrl ++ coinsListV2Path then NetRes.err { respStatus := some 402, tag := 1 }
      else NetRes.ok 200 (Value.vstr ("real")),
    mockCoinsList := fun _ => Value.vstr ("mockList"),
    mockCoinData := fun _ => Value.vstr ("mockCoin"),
    mockTopicData := fun t => Value.vstr t }

/-- Concrete environment whose transport always fails with HTTP 429 (rate limited). -/
def envRate429 : Env :=
  { apiKey := some ("k"), now := 1000,
    net := fun _ _ => NetRes.err { respStatus := some 429, tag := 3 },
    mockCoinsList := fun _ => Value.vstr ("mockList"),
    mockCoinData := fun _ => Value.vstr ("mockCoin"),
    mockTopicData := fun t => Value.vstr t }

/-- Concrete environment whose transport always succeeds with the truthy body `"x"`. -/
def envOkX : Env :=
  { apiKey := some ("k"), now := 1000,
    net := fun _ _ => NetRes.ok 200 (Value.vstr ("x")),
    mockCoinsList := fun _ => Value.vstr ("mockList"),
    mockCoinData := fun _ => Value.vstr ("mockCoin"),
    mockTopicData := fun t => Value.vstr t }

/-- State holding the falsy value `null` in the cache under the paid coins-list key,
with a freshly memoized `paid` tier. -/
def stCachedNull : St :=
  { cache := [(cacheKey coinsListV2Path [], Value.vnull)],
    auth := { apiTier := some Tier.paid, lastTierCheck := some 1000 }, netLog := [] }

/-- A coin's effective category list, written from the specification's words: absent or
empty-string categories give the empty list; a native array is used as is; a non-empty
string is split on commas and trimmed. -/
def normalizedCategories (coin : Coin) : List String :=
  match coin.categories with
  | Categories.absent => []
  | Categories.clist cs => cs
  | Categories.cstr s => if s = "" then [] else splitTrim s

/-- The one coin of the fixed test list carrying the `solana` category. -/
def solanaCoin : Coin := { sym := "SOL", categories := Categories.clist ["solana", "layer-1"] }

/-- A fixed six-coin list mirroring the repository's mock presets; exactly one item has
the category `"solana"`. -/
def sixCoins : List Coin :=
  [{ sym := "BTC", categories := Categories.clist ["bitcoin", "layer-1"] },
   { sym := "ETH", categories := Categories.clist ["ethereum", "layer-1", "defi"] },
   solanaCoin,
   { sym := "FET", categories := Categories.clist ["ai", "defi"] },
   { sym := "OCEAN", categories := Categories.clist ["ai", "data"] },
   { sym := "RNDR", categories := Categories.clist ["ai", "computing"] }]

/-! ## Basic lemmas -/

theorem toList_mk (l : List Char) : (String.mk l).toList = l := rfl

theorem jsLower_not_upper (c : Char) : isUpperAZ (jsLower c) = false := by
  unfold jsLower
  by_cases h : isUpperAZ c = true
  · rw [if_pos (by simpa using h)]
    have h' : 65 ≤ c.toNat ∧ c.toNat ≤ 90 := by simpa [isUpperAZ] using h
    obtain ⟨h1, h2⟩ := h'
    generalize c.toNat = n at h1 h2 ⊢
    interval_cases n <;> decide
  · rw [if_neg (by simpa using h)]
    simpa using h

theorem isTicker_iff (s : String) :
    isTicker s = true ↔
      2 ≤ s.length ∧ s.length ≤ 6 ∧ ∀ c ∈ s.toList, isTickerChar c = true := by
  simp [isTicker, List.all_eq_true]

theorem ne_empty_of_isTicker (s : String) (h : isTicker s = true) : s ≠ "" := by
  intro he
  have h2 := ((isTicker_iff s).1 h).1
  rw [he] at h2
  exact absurd h2 (by decide)

/-- C6: `normalizeIdentifier` maps empty or absent input to the empty string; on every
input matching `^[A-Z0-9]{2,6}$` (an uppercase 2–6 character ticker) it is the identity;
on every other non-empty string it returns the lowercase form with all whitespace
removed — in particular the result contains no whitespace and no uppercase A–Z
character. -/
theorem claim_C6_normalizeCoinIdentifier :
    normalizeCoinIdentifier none = "" ∧
    normalizeCoinIdentifier (some ("")) = "" ∧
    (∀ s : String, isTicker s = true → normalizeCoinIdentifier (some s) = s) ∧
    (∀ s : String, s ≠ "" → isTicker s = false →
      normalizeCoinIdentifier (some s) = lowerNoWs s ∧
      (∀ c ∈ (lowerNoWs s).toList, isWsJS c = false ∧ isUpperAZ c = false)) := by
  refine ⟨rfl, rfl, ?_, ?_⟩
  · intro s h
    have hne : s ≠ "" := ne_empty_of_isTicker s h
    show (if s = "" then "" else if isTicker s then s else lowerNoWs s) = s
    rw [if_neg hne, if_pos (by simpa using h)]
  · intro s hne hts
    constructor
    · show (if s = "" then "" else if isTicker s then s else lowerNoWs s) = lowerNoWs s
      rw [if_neg hne, if_neg (by simp [hts])]
    · intro c hc
      rw [lowerNoWs, toList_mk] at hc
      have hc' := List.mem_filter.1 hc
      refine ⟨by simpa using hc'.2, ?_⟩
      obtain ⟨c', _, hc'eq⟩ := List.mem_map.1 hc'.1
      rw [← hc'eq]
      exact jsLower_not_upper c'

/-- Witness for C6 at concrete inputs: `"Bitcoin Cash"` is non-empty and not a ticker,
and normalizes to `"bitcoincash"`; `"BTC"` is a ticker and is returned unchanged. -/
theorem claim_C6_normalizeCoinIdentifier_witness :
    ("Bitcoin Cash" : String) ≠ "" ∧ isTicker ("Bitcoin Cash") = false ∧
    normalizeCoinIdentifier (some ("Bitcoin Cash")) = "bitcoincash" ∧
    isTicker ("BTC") = true ∧ normalizeCoinIdentifier (some ("BTC")) = "BTC" := by
  refine ⟨by decide, by decide, ?_, by decide, ?_⟩
  · exact ((claim_C6_normalizeCoinIdentifier.2.2.2 ("Bitcoin Cash") (by decide)
      (by decide)).1).trans (by decide)
  · exact claim_C6_normalizeCoinIdentifier.2.2.1 ("BTC") (by decide)

theorem scOr1_eq_max (d : Point) : scOr1 d = max (d.sc.getD 0) 1 := by
  unfold scOr1
  cases d.sc with
  | none =>
    simp only [Option.getD_none]
    omega
  | some n =>
    by_cases hn : n = 0
    · subst hn
      simp
    · show (if n = 0 then 1 else n) = max ((some n).getD 0) 1
      rw [if_neg hn]
      simp only [Option.getD_some]
      omega

/-- C7: the average-sentiment, total-social-volume and average-engagement aggregates
are all 0 on the empty sequence; the per-point engagement divisor `d.sc || 1` equals
`max(social contributors, 1)` (a zero or absent count becomes 1) and is never zero, so
the engagement computation never divides by zero; the average engagement is the mean of
`social volume / max(contributors, 1)`. -/
theorem claim_C7_aggregates :
    calculateAverageSentiment [] = 0 ∧
    calculateTotalSocialVolume [] = 0 ∧
    calculateAverageEngagement [] = 0 ∧
    (∀ d : Point, scOr1 d = max (d.sc.getD 0) 1) ∧
    (∀ d : Point, ((scOr1 d : ℕ) : ℚ) ≠ 0) ∧
    (∀ l : List Point, calculateAverageEngagement l =
      if l.length = 0 then 0
      else (l.map (fun d => svOr0 d / ((max (d.sc.getD 0) 1 : ℕ) : ℚ))).sum / (l.length : ℚ)) := by
  refine ⟨rfl, rfl, rfl, scOr1_eq_max, ?_, ?_⟩
  · intro d
    have h : 1 ≤ scOr1 d := by rw [scOr1_eq_max]; omega
    exact_mod_cast Nat.one_le_iff_ne_zero.1 h
  · intro l
    have hf : engagementOf = fun d => svOr0 d / ((max (d.sc.getD 0) 1 : ℕ) : ℚ) :=
      funext (fun d => by rw [engagementOf, scOr1_eq_max])
    rw [calculateAverageEngagement, hf]

/-! ## Characterization of the free-path template matcher -/

theorem litToks_cons (c : Char) (l : List Char) :
    litToks (c :: l) = Tok.lit c :: litToks l := rfl

theorem matchTokens_nil (l : List Char) : matchTokens [] l = true ↔ l = [] := by
  cases l <;> simp [matchTokens]

theorem matchTokens_lit (c : Char) (ts : List Tok) (l : List Char) :
    matchTokens (Tok.lit c :: ts) l = true ↔
      ∃ l', l = c :: l' ∧ matchTokens ts l' = true := by
  cases l with
  | nil => simp [matchTokens]
  | cons p ps =>
    simp only [matchTokens, Bool.and_eq_true, decide_eq_true_eq]
    constructor
    · rintro ⟨rfl, h⟩
      exact ⟨ps, rfl, h⟩
    · rintro ⟨l', heq, h⟩
      injection heq with h1 h2
      subst h1
      subst h2
      exact ⟨rfl, h⟩

theorem matchTokens_lits (a : List Char) (ts : List Tok) (l : List Char) :
    matchTokens (litToks a ++ ts) l = true ↔
      ∃ l', l = a ++ l' ∧ matchTokens ts l' = true := by
  induction a generalizing l with
  | nil => simp [litToks]
  | cons c a ih =>
    rw [litToks_cons, List.cons_append, matchTokens_lit]
    constructor
    · rintro ⟨l', rfl, h⟩
      obtain ⟨l'', rfl, h2⟩ := (ih l').1 h
      exact ⟨l'', rfl, h2⟩
    · rintro ⟨l', rfl, h⟩
      exact ⟨a ++ l', rfl, (ih _).2 ⟨l', rfl, h⟩⟩

theorem matchTokens_lits_nil (a l : List Char) :
    matchTokens (litToks a) l = true ↔ l = a := by
  have h := matchTokens_lits a [] l
  rw [List.append_nil] at h
  rw [h]
  constructor
  · rintro ⟨l', rfl, hm⟩
    rw [(matchTokens_nil l').1 hm, List.append_nil]
  · rintro rfl
    exact ⟨[], by simp, rfl⟩

theorem matchTokens_wild (ts : List Tok) (l : List Char) :
    matchTokens (Tok.wild :: ts) l = true ↔
      ∃ s l', l = s ++ l' ∧ s ≠ [] ∧ (∀ c ∈ s, c ≠ '/') ∧ matchTokens ts l' = true := by
  induction l with
  | nil =>
    simp only [matchTokens, Bool.false_eq_true, false_iff]
    rintro ⟨s, l', h, hne, _, _⟩
    exact hne (List.append_eq_nil.1 h.symm).1
  | cons p ps ih =>
    simp only [matchTokens, Bool.and_eq_true, Bool.or_eq_true, decide_eq_true_eq]
    constructor
    · rintro ⟨hp, h | h⟩
      · exact ⟨[p], ps, rfl, by simp, by simpa using hp, h⟩
      · obtain ⟨s, l', rfl, hne, hsl, hm⟩ := ih.1 h
        exact ⟨p :: s, l', rfl, by simp,
          by intro c hc; rcases List.mem_cons.1 hc with rfl | hc; exact hp; exact hsl c hc, hm⟩
    · rintro ⟨s, l', heq, hne, hsl, hm⟩
      cases s with
      | nil => exact absurd rfl hne
      | cons q s' =>
        rw [List.cons_append] at heq
        injection heq with h1 h2
        subst h1
        refine ⟨hsl p (List.mem_cons_self p s'), ?_⟩
        cases s' with
        | nil =>
          rw [List.nil_append] at h2
          subst h2
          exact Or.inl hm
        | cons r s'' =>
          refine Or.inr (ih.2 ⟨r :: s'', l', h2, by simp, ?_, hm⟩)
          intro c hc
          exact hsl c (List.mem_cons_of_mem p hc)

theorem string_eq_of_toList {s t : String} (h : s.toList = t.toList) : s = t :=
  String.ext h

theorem parseTemplate_topic :
    parseTemplate (("/public/topic/:topic/v1").toList)
      = litToks (("/public/topic/").toList) ++ (Tok.wild :: litToks (("/v1").toList)) := by
  decide

theorem parseTemplate_coinsV1 :
    parseTemplate (("/public/coins/list/v1").toList)
      = litToks (("/public/coins/list/v1").toList) := by
  decide

theorem parseTemplate_categories :
    parseTemplate (("/public/categories/list/v1").toList)
      = litToks (("/public/categories/list/v1").toList) := by
  decide

theorem matchesTemplate_topic (path : String) :
    matchesTemplate ("/public/topic/:topic/v1") path = true ↔
      ∃ s : List Char, s ≠ [] ∧ (∀ c ∈ s, c ≠ '/') ∧
        path.toList = ("/public/topic/").toList ++ s ++ ("/v1").toList := by
  rw [matchesTemplate, parseTemplate_topic, matchTokens_lits]
  constructor
  · rintro ⟨l', hpath, h⟩
    obtain ⟨s, l'', rfl, hne, hsl, h2⟩ := (matchTokens_wild _ _).1 h
    rw [(matchTokens_lits_nil _ _).1 h2] at hpath
    exact ⟨s, hne, hsl, by rw [hpath, List.append_assoc]⟩
  · rintro ⟨s, hne, hsl, heq⟩
    refine ⟨s ++ ("/v1").toList, by rw [heq, List.append_assoc], ?_⟩
    exact (matchTokens_wild _ _).2 ⟨s, ("/v1").toList, rfl, hne, hsl,
      (matchTokens_lits_nil _ _).2 rfl⟩

theorem matchesTemplate_lit_iff (t path : String)
    (h : parseTemplate t.toList = litToks t.toList) :
    matchesTemplate t path = true ↔ path = t := by
  rw [matchesTemplate, h, matchTokens_lits_nil]
  constructor
  · intro h2
    exact String.ext h2
  · rintro rfl
    rfl

theorem freeListMatch_iff (path : String) :
    freeListMatch path = true ↔ freeAccessSpec path := by
  rw [freeListMatch, freeEndpoints]
  simp only [List.any_cons, List.any_nil, Bool.or_eq_true, Bool.or_false]
  rw [matchesTemplate_topic, matchesTemplate_lit_iff _ _ parseTemplate_coinsV1,
    matchesTemplate_lit_iff _ _ parseTemplate_categories, freeAccessSpec]
  constructor
  · rintro (⟨s, hne, hsl, heq⟩ | h | h)
    · refine Or.inl ⟨String.mk s, ?_, hsl, ?_⟩
      · intro hcon
        exact hne (congrArg String.toList hcon)
      · apply string_eq_of_toList
        rw [heq]
        rfl
    · exact Or.inr (Or.inl h)
    · exact Or.inr (Or.inr h)
  · rintro (⟨s, hne, hsl, heq⟩ | h | h)
    · refine Or.inl ⟨s.toList, ?_, hsl, ?_⟩
      · intro hcon
        exact hne (string_eq_of_toList hcon)
      · rw [heq]
        rfl
    · exact Or.inr (Or.inl h)
    · exact Or.inr (Or.inr h)

/-- C4: `canAccessEndpoint` grants every path on tier `paid`; denies every path on tiers
`invalid` and `unknown`; and on tier `free` grants exactly the paths matching one of the
fixed free-tier templates — anchored at both ends, the variable segment matching any
non-empty run of non-separator characters, with no partial or trailing-path matches
(`freeAccessSpec`). -/
theorem claim_C4_canAccessEndpoint :
    (∀ (env : Env) (path : String) (cache : List (String × Value)) (lc : Option Nat)
        (log : List NetCall),
      (canAccessEndpoint env path ⟨cache, ⟨some Tier.paid, lc⟩, log⟩).1 = true) ∧
    (∀ (env : Env) (path : String) (cache : List (String × Value)) (lc : Option Nat)
        (log : List NetCall),
      (canAccessEndpoint env path ⟨cache, ⟨some Tier.invalid, lc⟩, log⟩).1 = false) ∧
    (∀ (env : Env) (path : String) (cache : List (String × Value)) (lc : Option Nat)
        (log : List NetCall),
      (canAccessEndpoint env path ⟨cache, ⟨some Tier.unknown, lc⟩, log⟩).1 = false) ∧
    (∀ (env : Env) (path : String) (cache : List (String × Value)) (lc : Option Nat)
        (log : List NetCall),
      ((canAccessEndpoint env path ⟨cache, ⟨some Tier.free, lc⟩, log⟩).1 = true
        ↔ freeAccessSpec path)) := by
  refine ⟨fun _ _ _ _ _ => rfl, fun _ _ _ _ _ => rfl, fun _ _ _ _ _ => rfl,
    fun env path cache lc log => ?_⟩
  show freeListMatch path = true ↔ freeAccessSpec path
  exact freeListMatch_iff path

/-! ## Tier detection -/

theorem detectApiTier_memo (env : Env) (st : St) (t : Tier) (c : Nat)
    (hT : st.auth.apiTier = some t) (hC : st.auth.lastTierCheck = some c)
    (h0 : c ≠ 0) (hFresh : env.now - c < tierCheckInterval) :
    detectApiTier env st = (t, st) := by
  obtain ⟨cache, ⟨oT, oC⟩, log⟩ := st
  simp only at hT hC
  subst hT
  subst hC
  show (if decide (c ≠ 0) && decide (env.now - c < tierCheckInterval) then _ else _) = _
  rw [if_pos]
  simp [h0, hFresh]

theorem detectApiTier_slow (env : Env) (st : St) (h : memoFresh env st.auth = false) :
    detectApiTier env st = detectSlow env st := by
  obtain ⟨cache, ⟨oT, oC⟩, log⟩ := st
  cases oT with
  | none => rfl
  | some t =>
    cases oC with
    | none => rfl
    | some c =>
      simp only [memoFresh] at h
      show (if decide (c ≠ 0) && decide (env.now - c < tierCheckInterval) then _ else _) = _
      have hcond : ¬((decide (c ≠ 0) && decide (env.now - c < tierCheckInterval)) = true) := by
        rw [h]
        exact Bool.false_ne_true
      rw [if_neg hcond]

/-- C3 (amended): `detectApiTier`'s contract.  A tier memoized within the last 24 hours
is returned unchanged with no probe and no state change.  With no credential the result
is `invalid` with no network call: the memoized tier is set but the last-check timestamp
is left unchanged (the source returns before writing it).  Otherwise exactly one probe
GET is issued, classified 200 → paid, 402 → free, 401 → invalid, anything else (other
statuses, other errors, missing response) → unknown, and both memo fields are updated. -/
theorem claim_C3_detectApiTier :
    (∀ (env : Env) (st : St) (t : Tier) (c : Nat),
      st.auth.apiTier = some t → st.auth.lastTierCheck = some c → c ≠ 0 →
      env.now - c < tierCheckInterval → detectApiTier env st = (t, st)) ∧
    (∀ (env : Env) (st : St), keyTruthy env = false → memoFresh env st.auth = false →
      detectApiTier env st =
        (Tier.invalid,
          { st with auth := { apiTier := some Tier.invalid,
                              lastTierCheck := st.auth.lastTierCheck } })) ∧
    (∀ (env : Env) (st : St), keyTruthy env = true → memoFresh env st.auth = false →
      detectApiTier env st =
        (tierOfProbe (env.net probeUrl probeParams),
          { cache := st.cache,
            auth := { apiTier := some (tierOfProbe (env.net probeUrl probeParams)),
                      lastTierCheck := some env.now },
            netLog := st.netLog ++ [⟨probeUrl, probeParams,
              env.net probeUrl probeParams⟩] })) ∧
    (∀ (d : Value) (s : Nat) (g : Nat),
      tierOfProbe (NetRes.ok 200 d) = Tier.paid ∧
      (s ≠ 200 → tierOfProbe (NetRes.ok s d) = Tier.unknown) ∧
      tierOfProbe (NetRes.err ⟨some 402, g⟩) = Tier.free ∧
      tierOfProbe (NetRes.err ⟨some 401, g⟩) = Tier.invalid ∧
      (s ≠ 402 → s ≠ 401 → tierOfProbe (NetRes.err ⟨some s, g⟩) = Tier.unknown) ∧
      tierOfProbe (NetRes.err ⟨none, g⟩) = Tier.unknown) := by
  refine ⟨detectApiTier_memo, ?_, ?_, ?_⟩
  · intro env st hKey hMemo
    rw [detectApiTier_slow env st hMemo, detectSlow, if_pos hKey]
  · intro env st hKey hMemo
    rw [detectApiTier_slow env st hMemo]
    unfold detectSlow
    rw [if_neg (by simp [hKey])]
    rfl
  · intro d s g
    refine ⟨rfl, ?_, rfl, rfl, ?_, rfl⟩
    · intro hs
      show (if s = 200 then Tier.paid else Tier.unknown) = Tier.unknown
      rw [if_neg hs]
    · intro h402 h401
      show (if s = 402 then Tier.free
        else if s = 401 then Tier.invalid else Tier.unknown) = Tier.unknown
      rw [if_neg h402, if_neg h401]

/-- C3 counterexample: with no credential configured and a fresh state, `detectApiTier`
returns `invalid` but does **not** update the last-check timestamp — it stays `none`
instead of becoming `some now` — contradicting the claim that both the memoized tier and
the timestamp are updated in every branch.  (It also issues no network call.) -/
theorem claim_C3_counterexample :
    (detectApiTier envNoKey stInit).1 = Tier.invalid ∧
    (detectApiTier envNoKey stInit).2.auth.apiTier = some Tier.invalid ∧
    (detectApiTier envNoKey stInit).2.auth.lastTierCheck = none ∧
    (detectApiTier envNoKey stInit).2.auth.lastTierCheck ≠ some envNoKey.now ∧
    (detectApiTier envNoKey stInit).2.netLog = [] := by
  exact ⟨rfl, rfl, rfl, by decide, rfl⟩

/-- Witness for C3's no-credential branch at a concrete input. -/
theorem claim_C3_detectApiTier_witness :
    keyTruthy envNoKey = false ∧ memoFresh envNoKey stInit.auth = false ∧
    detectApiTier envNoKey stInit =
      (Tier.invalid,
        { stInit with auth := { apiTier := some Tier.invalid, lastTierCheck := none } }) :=
  ⟨by decide, by decide,
    claim_C3_detectApiTier.2.1 envNoKey stInit (by decide) (by decide)⟩

/-! ## Request pipeline lemmas -/

theorem detectApiTier_cache (env : Env) (st : St) :
    (detectApiTier env st).2.cache = st.cache := by
  unfold detectApiTier detectSlow logCall
  obtain ⟨cache, ⟨oT, oC⟩, log⟩ := st
  cases oT <;> cases oC <;> dsimp only <;> (repeat' split) <;> rfl

theorem detectApiTier_netLog (env : Env) (st : St) :
    (detectApiTier env st).2.netLog = st.netLog ∨
    (detectApiTier env st).2.netLog =
      st.netLog ++ [⟨probeUrl, probeParams, env.net probeUrl probeParams⟩] := by
  unfold detectApiTier detectSlow logCall
  obtain ⟨cache, ⟨oT, oC⟩, log⟩ := st
  cases oT <;> cases oC <;> dsimp only <;> (repeat' split) <;>
    first
      | exact Or.inl rfl
      | exact Or.inr rfl

theorem canAccessEndpoint_eq (env : Env) (e : String) (st : St) :
    canAccessEndpoint env e st =
      (tierAccess (accessState env st).auth.apiTier e, accessState env st) := by
  unfold canAccessEndpoint accessState
  obtain ⟨cache, ⟨oT, oC⟩, log⟩ := st
  cases oT with
  | some t => cases t <;> rfl
  | none =>
    dsimp only
    cases hD : (detectApiTier env ⟨cache, ⟨none, oC⟩, log⟩).2.auth.apiTier with
    | none => rfl
    | some t => cases t <;> rfl

theorem accessState_cache (env : Env) (st : St) :
    (accessState env st).cache = st.cache := by
  unfold accessState
  cases h : st.auth.apiTier with
  | some t => rfl
  | none => exact detectApiTier_cache env st

theorem accessState_netLog (env : Env) (st : St) :
    (accessState env st).netLog = st.netLog ∨
    (accessState env st).netLog =
      st.netLog ++ [⟨probeUrl, probeParams, env.net probeUrl probeParams⟩] := by
  unfold accessState
  cases h : st.auth.apiTier with
  | some t => exact Or.inl rfl
  | none => exact detectApiTier_netLog env st

theorem accessState_of_some (env : Env) (st : St) (t : Tier)
    (h : st.auth.apiTier = some t) : accessState env st = st := by
  unfold accessState
  rw [h]

theorem cacheGet_set_self (cache : List (String × Value)) (k : String) (v : Value) :
    cacheGet (cacheSet cache k v) k = some v := by
  simp [cacheGet, cacheSet, List.find?]

theorem makeRequestCore_hit (inner : Params → St → Except NetErr Value × St) (env : Env)
    (e : String) (p : Params) (st : St) (v : Value)
    (hget : cacheGet st.cache (cacheKey e p) = some v) (htr : valueTruthy v = true) :
    makeRequestCore inner env e p st = (Except.ok v, st) := by
  unfold makeRequestCore
  rw [hget]
  dsimp only
  rw [if_pos htr]

theorem makeRequestCore_miss (inner : Params → St → Except NetErr Value × St) (env : Env)
    (e : String) (p : Params) (st : St)
    (hmiss : truthyHit st.cache (cacheKey e p) = false) :
    makeRequestCore inner env e p st = requestMiss inner env e p st := by
  unfold makeRequestCore
  unfold truthyHit at hmiss
  cases hget : cacheGet st.cache (cacheKey e p) with
  | none => rfl
  | some v =>
    rw [hget] at hmiss
    have hv : valueTruthy v = false := hmiss
    dsimp only
    rw [if_neg (by simp [hv])]

theorem getFallbackDataF_ok (inner : Params → St → Except NetErr Value × St) (env : Env)
    (e : String) (p : Params) (st : St) :
    ∃ v st', getFallbackDataF inner env e p st = (Except.ok v, st') := by
  unfold getFallbackDataF
  by_cases hin : containsSub coinsListV2Marker e = true
  · rw [if_pos hin]
    rcases hR : inner p st with ⟨r, st'⟩
    cases r with
    | ok v => exact ⟨v, st', rfl⟩
    | error er => exact ⟨mkEnvelope env e p, st', rfl⟩
  · rw [if_neg hin]
    exact ⟨mkEnvelope env e p, st, rfl⟩

theorem getFallbackDataF_noSub (inner : Params → St → Except NetErr Value × St)
    (env : Env) (e : String) (p : Params) (st : St)
    (hin : containsSub coinsListV2Marker e = false) :
    getFallbackDataF inner env e p st = (Except.ok (mkEnvelope env e p), st) := by
  unfold getFallbackDataF
  rw [if_neg (by simp [hin])]

/-- The fuel-0 substituted request under a denied tier: returns some value with the
state unchanged (either a cached value or the inner mock envelope; never an error, no
network call, no cache write). -/
theorem makeRequest0_denied (env : Env) (p : Params) (st : St)
    (hTier : st.auth.apiTier = some Tier.invalid ∨ st.auth.apiTier = some Tier.unknown) :
    ∃ v, makeRequest 0 env freeCoinsListEndpoint p st = (Except.ok v, st) := by
  rw [makeRequest]
  by_cases hmiss : truthyHit st.cache (cacheKey freeCoinsListEndpoint p) = true
  · unfold truthyHit at hmiss
    cases hget : cacheGet st.cache (cacheKey freeCoinsListEndpoint p) with
    | none => rw [hget] at hmiss; cases hmiss
    | some v =>
      rw [hget] at hmiss
      exact ⟨v, makeRequestCore_hit _ env _ p st v hget hmiss⟩
  · rw [makeRequestCore_miss _ env _ p st (by simpa using hmiss)]
    unfold requestMiss
    rw [canAccessEndpoint_eq]
    have hAS : accessState env st = st := by
      rcases hTier with h | h
      · exact accessState_of_some env st Tier.invalid h
      · exact accessState_of_some env st Tier.unknown h
    rw [hAS]
    have hta : tierAccess st.auth.apiTier freeCoinsListEndpoint = false := by
      rcases hTier with h | h <;> rw [h] <;> rfl
    rw [hta]
    dsimp only
    rw [if_pos rfl, getFallbackDataF_noSub _ env _ p st (by decide)]
    exact ⟨mkEnvelope env freeCoinsListEndpoint p, rfl⟩

/-- C1 (amended): for every endpoint and parameters, when the cache misses and the
detected tier is `invalid` or `unknown`, the request does **not** fail: no data request
reaches the network (at most the once-a-day tier probe runs inside the access check),
the cache is not written, and a fallback value is returned — the mock envelope, or for
the paid coins list a cached or synthesized free-variant value — never an error. -/
theorem claim_C1_deniedTier (env : Env) (e : String) (p : Params) (st : St)
    (hMiss : truthyHit st.cache (cacheKey e p) = false)
    (hTier : (accessState env st).auth.apiTier = some Tier.invalid ∨
             (accessState env st).auth.apiTier = some Tier.unknown) :
    ∃ v, request env e p st = (Except.ok v, accessState env st) ∧
      (accessState env st).cache = st.cache ∧
      ((accessState env st).netLog = st.netLog ∨
        (accessState env st).netLog = st.netLog ++
          [⟨probeUrl, probeParams, env.net probeUrl probeParams⟩]) := by
  have hcache := accessState_cache env st
  have hlog := accessState_netLog env st
  rw [request, makeRequest, makeRequestCore_miss _ env e p st hMiss]
  unfold requestMiss
  rw [canAccessEndpoint_eq]
  have hta : tierAccess (accessState env st).auth.apiTier e = false := by
    rcases hTier with h | h <;> rw [h] <;> rfl
  rw [hta]
  dsimp only
  rw [if_pos rfl]
  unfold getFallbackDataF
  by_cases hin : containsSub coinsListV2Marker e = true
  · rw [if_pos hin]
    obtain ⟨v, hv⟩ := makeRequest0_denied env p (accessState env st) hTier
    dsimp only
    rw [hv]
    exact ⟨v, rfl, hcache, hlog⟩
  · rw [if_neg hin]
    exact ⟨mkEnvelope env e p, rfl, hcache, hlog⟩

/-- C1 counterexample: with no credential configured (tier `invalid`) and an empty
cache, the claim says the call fails with the error surfaced and no data returned; in
fact the pipeline returns the structured mock envelope. -/
theorem claim_C1_counterexample :
    (request envNoKey ("/public/topic/btc/v1") [] stInit).1 =
      Except.ok (mkEnvelope envNoKey ("/public/topic/btc/v1") []) ∧
    isMockEnvelope (mkEnvelope envNoKey ("/public/topic/btc/v1") []) = true ∧
    (accessState envNoKey stInit).auth.apiTier = some Tier.invalid :=
  ⟨rfl, rfl, rfl⟩

/-- On a cache miss with access granted, when the transport rejects, the pipeline
result is: fallback on 402/429, the error itself otherwise. -/
theorem request_err (env : Env) (e : String) (p : Params) (st st₁ : St) (er : NetErr)
    (hMiss : truthyHit st.cache (cacheKey e p) = false)
    (hAcc : canAccessEndpoint env e st = (true, st₁))
    (hNet : env.net (baseUrl ++ e) p = NetRes.err er) :
    request env e p st =
      if er.respStatus = some 402 ∨ er.respStatus = some 429 then
        getFallbackDataF (fun q s => makeRequest 0 env freeCoinsListEndpoint q s) env e p
          (logCall st₁ (baseUrl ++ e) p (NetRes.err er))
      else
        (Except.error er, logCall st₁ (baseUrl ++ e) p (NetRes.err er)) := by
  rw [request, makeRequest, makeRequestCore_miss _ env e p st hMiss]
  unfold requestMiss
  rw [hAcc]
  dsimp only
  rw [if_neg (by simp), hNet]

/-- C2 (amended): with access granted and a cache miss, a transport failure is rethrown
unchanged exactly when its status is neither 402 nor 429.  On 402/429 the pipeline never
raises: when the endpoint carries the paid coins-list marker it first re-enters the
pipeline on the free variant and returns whatever that yields; otherwise it returns the
structured envelope whose `meta.using_mock_data` field is `true` and whose
`meta.original_endpoint` records the original endpoint. -/
theorem claim_C2_failureHandling (env : Env) (e : String) (p : Params) (st st₁ : St)
    (er : NetErr)
    (hMiss : truthyHit st.cache (cacheKey e p) = false)
    (hAcc : canAccessEndpoint env e st = (true, st₁))
    (hNet : env.net (baseUrl ++ e) p = NetRes.err er) :
    ((request env e p st).1 = Except.error er ↔
      ¬(er.respStatus = some 402 ∨ er.respStatus = some 429)) ∧
    (¬(er.respStatus = some 402 ∨ er.respStatus = some 429) →
      request env e p st = (Except.error er, logCall st₁ (baseUrl ++ e) p (NetRes.err er))) ∧
    ((er.respStatus = some 402 ∨ er.respStatus = some 429) →
      (∃ v, (request env e p st).1 = Except.ok v) ∧
      (containsSub coinsListV2Marker e = false →
        request env e p st =
          (Except.ok (mkEnvelope env e p),
            logCall st₁ (baseUrl ++ e) p (NetRes.err er)) ∧
        isMockEnvelope (mkEnvelope env e p) = true ∧
        getProp (mkEnvelope env e p) ("meta") =
          some (Value.vobj [("using_mock_data", Value.vbool true),
                            ("original_endpoint", Value.vstr e)]))) := by
  have hreq := request_err env e p st st₁ er hMiss hAcc hNet
  refine ⟨?_, ?_, ?_⟩
  · by_cases h45 : er.respStatus = some 402 ∨ er.respStatus = some 429
    · rw [hreq, if_pos h45]
      obtain ⟨v, st', hok⟩ := getFallbackDataF_ok
        (fun q s => makeRequest 0 env freeCoinsListEndpoint q s) env e p
        (logCall st₁ (baseUrl ++ e) p (NetRes.err er))
      rw [hok]
      constructor
      · intro h
        exact absurd h (by simp)
      · intro hn
        exact absurd h45 hn
    · rw [hreq, if_neg h45]
      exact ⟨fun _ => h45, fun _ => rfl⟩
  · intro h45
    rw [hreq, if_neg h45]
  · intro h45
    constructor
    · rw [hreq, if_pos h45]
      obtain ⟨v, st', hok⟩ := getFallbackDataF_ok
        (fun q s => makeRequest 0 env freeCoinsListEndpoint q s) env e p
        (logCall st₁ (baseUrl ++ e) p (NetRes.err er))
      rw [hok]
      exact ⟨v, rfl⟩
    · intro hnm
      refine ⟨?_, rfl, rfl⟩
      rw [hreq, if_pos h45, getFallbackDataF_noSub _ env e p _ hnm]

/-- C2 counterexample: on the paid coins-list endpoint (which has a free variant) a 402
failure whose free-variant retry succeeds makes the pipeline return the retried
response `"real"`, **not** a structured envelope with a mock-data flag; moreover the
field the code writes is named `using_mock_data`, not `usingMockData`. -/
theorem claim_C2_counterexample :
    envFree402.net (baseUrl ++ coinsListV2Path) [] =
      NetRes.err { respStatus := some 402, tag := 1 } ∧
    (request envFree402 coinsListV2Path [] stPaid).1 = Except.ok (Value.vstr ("real")) ∧
    isMockEnvelope (Value.vstr ("real")) = false ∧
    getProp (Value.vstr ("real")) ("meta") = none :=
  ⟨rfl, rfl, rfl, rfl⟩

/-- Witness for C2 (amended) at a concrete input: a 429 on the per-topic endpoint (no
free variant) yields the mock envelope rather than raising. -/
theorem claim_C2_failureHandling_witness :
    truthyHit stPaid.cache (cacheKey ("/public/topic/btc/v1") []) = false ∧
    canAccessEndpoint envRate429 ("/public/topic/btc/v1") stPaid = (true, stPaid) ∧
    envRate429.net (baseUrl ++ ("/public/topic/btc/v1")) [] =
      NetRes.err { respStatus := some 429, tag := 3 } ∧
    request envRate429 ("/public/topic/btc/v1") [] stPaid =
      (Except.ok (mkEnvelope envRate429 ("/public/topic/btc/v1") []),
        logCall stPaid (baseUrl ++ ("/public/topic/btc/v1")) []
          (NetRes.err { respStatus := some 429, tag := 3 })) :=
  ⟨by decide, rfl, rfl,
    (((claim_C2_failureHandling envRate429 ("/public/topic/btc/v1") [] stPaid stPaid
        { respStatus := some 429, tag := 3 } (by decide) rfl rfl).2.2
      (Or.inr rfl)).2 (by decide)).1⟩

/-- C5 (amended): the cache key is `` `${endpoint}_${JSON.stringify(params)}` ``;
whenever the cache holds a *truthy* value under that key the pipeline returns it
immediately with no tier check, no network call and no state change; and after a
successful fetch of a truthy body, an immediately repeated identical request returns the
stored body with the state unchanged — so the transport is not invoked again (at most
one data fetch across the two requests).  (A falsy held value — `null`, `0`, `""`,
`false` — is *not* returned: see the counterexample.) -/
theorem claim_C5_cacheKeyAndHit :
    (∀ (e : String) (p : Params), cacheKey e p = e ++ "_" ++ jsonStringify p) ∧
    (∀ (env : Env) (e : String) (p : Params) (st : St) (v : Value),
      cacheGet st.cache (cacheKey e p) = some v → valueTruthy v = true →
      request env e p st = (Except.ok v, st)) ∧
    (∀ (env : Env) (e : String) (p : Params) (st st₁ : St) (s : Nat) (d : Value),
      truthyHit st.cache (cacheKey e p) = false →
      canAccessEndpoint env e st = (true, st₁) →
      env.net (baseUrl ++ e) p = NetRes.ok s d → valueTruthy d = true →
      request env e p st =
        (Except.ok d,
          { logCall st₁ (baseUrl ++ e) p (NetRes.ok s d) with
            cache := cacheSet (logCall st₁ (baseUrl ++ e) p (NetRes.ok s d)).cache
              (cacheKey e p) d }) ∧
      request env e p
          { logCall st₁ (baseUrl ++ e) p (NetRes.ok s d) with
            cache := cacheSet (logCall st₁ (baseUrl ++ e) p (NetRes.ok s d)).cache
              (cacheKey e p) d } =
        (Except.ok d,
          { logCall st₁ (baseUrl ++ e) p (NetRes.ok s d) with
            cache := cacheSet (logCall st₁ (baseUrl ++ e) p (NetRes.ok s d)).cache
              (cacheKey e p) d })) := by
  refine ⟨fun _ _ => rfl, ?_, ?_⟩
  · intro env e p st v hget htr
    rw [request, makeRequest]
    exact makeRequestCore_hit _ env e p st v hget htr
  · intro env e p st st₁ s d hMiss hAcc hNet htr
    constructor
    · rw [request, makeRequest, makeRequestCore_miss _ env e p st hMiss]
      unfold requestMiss
      rw [hAcc]
      dsimp only
      rw [if_neg (by simp), hNet]
    · rw [request, makeRequest]
      exact makeRequestCore_hit _ env e p _ d (cacheGet_set_self _ _ _) htr

/-- C5 counterexample: the cache holds the (falsy) value `null` under the request's key,
yet the pipeline does not return it — it performs a fresh network call (the log grows
from 0 to 1 entries) and returns the network body instead.  With a falsy first response
body, two consecutive identical requests would likewise both reach the transport. -/
theorem claim_C5_counterexample :
    cacheGet stCachedNull.cache (cacheKey coinsListV2Path []) = some Value.vnull ∧
    (request envOkX coinsListV2Path [] stCachedNull).1 = Except.ok (Value.vstr ("x")) ∧
    (request envOkX coinsListV2Path [] stCachedNull).1 ≠ Except.ok Value.vnull ∧
    stCachedNull.netLog.length = 0 ∧
    (request envOkX coinsListV2Path [] stCachedNull).2.netLog.length = 1 := by
  refine ⟨rfl, rfl, ?_, rfl, rfl⟩
  show Except.ok (Value.vstr ("x")) ≠ Except.ok Value.vnull
  intro h
  injection h with h1
  exact Value.noConfusion h1

/-- Witness for C5 (amended) at a concrete input. -/
theorem claim_C5_cacheKeyAndHit_witness :
    truthyHit stPaid.cache (cacheKey coinsListV2Path []) = false ∧
    canAccessEndpoint envOkX coinsListV2Path stPaid = (true, stPaid) ∧
    envOkX.net (baseUrl ++ coinsListV2Path) [] = NetRes.ok 200 (Value.vstr ("x")) ∧
    valueTruthy (Value.vstr ("x")) = true ∧
    (request envOkX coinsListV2Path [] stPaid =
        (Except.ok (Value.vstr ("x")),
          { logCall stPaid (baseUrl ++ coinsListV2Path) []
              (NetRes.ok 200 (Value.vstr ("x"))) with
            cache := cacheSet (logCall stPaid (baseUrl ++ coinsListV2Path) []
                (NetRes.ok 200 (Value.vstr ("x")))).cache
              (cacheKey coinsListV2Path []) (Value.vstr ("x")) }) ∧
      request envOkX coinsListV2Path []
          { logCall stPaid (baseUrl ++ coinsListV2Path) []
              (NetRes.ok 200 (Value.vstr ("x"))) with
            cache := cacheSet (logCall stPaid (baseUrl ++ coinsListV2Path) []
                (NetRes.ok 200 (Value.vstr ("x")))).cache
              (cacheKey coinsListV2Path []) (Value.vstr ("x")) } =
        (Except.ok (Value.vstr ("x")),
          { logCall stPaid (baseUrl ++ coinsListV2Path) []
              (NetRes.ok 200 (Value.vstr ("x"))) with
            cache := cacheSet (logCall stPaid (baseUrl ++ coinsListV2Path) []
                (NetRes.ok 200 (Value.vstr ("x")))).cache
              (cacheKey coinsListV2Path []) (Value.vstr ("x")) })) :=
  ⟨by decide, rfl, rfl, by decide,
    claim_C5_cacheKeyAndHit.2.2 envOkX coinsListV2Path [] stPaid stPaid 200
      (Value.vstr ("x")) (by decide) rfl rfl (by decide)⟩

/-- C8: `getEcosystemCoins` propagates fetch errors unchanged; on success it returns
the fetched list filtered by case-insensitive membership of the alias-mapped category in
each coin's normalized category set, truncated to `limit` (so at most `limit` items, in
the original order); its output depends only on the 200-coin fetch; the alias table maps
the five fixed names and passes unknown names through; the filter accepts a coin exactly
when its normalized category list (native array, or comma-split-and-trimmed string;
absent/empty excluded) contains the category case-insensitively; and on the fixed
six-coin list with exactly one `"solana"`-categorized item, `getEcosystemCoins
("solana", 3)` returns exactly that item. -/
theorem claim_C8_getEcosystemCoins :
    (∀ (f : Nat → Except NetErr (List Coin)) (eco : String) (lim : Nat) (er : NetErr),
      f 200 = Except.error er → getEcosystemCoins f eco lim = Except.error er) ∧
    (∀ (f : Nat → Except NetErr (List Coin)) (eco : String) (lim : Nat) (cs : List Coin),
      f 200 = Except.ok cs →
      getEcosystemCoins f eco lim =
        Except.ok ((cs.filter (fun c => coinMatchesCategory (mapCategory eco) c)).take lim) ∧
      ((cs.filter (fun c => coinMatchesCategory (mapCategory eco) c)).take lim).length ≤ lim ∧
      List.Sublist ((cs.filter (fun c => coinMatchesCategory (mapCategory eco) c)).take lim)
        cs) ∧
    (∀ (f g : Nat → Except NetErr (List Coin)) (eco : String) (lim : Nat),
      f 200 = g 200 → getEcosystemCoins f eco lim = getEcosystemCoins g eco lim) ∧
    (mapCategory ("ai-agents") = "ai" ∧ mapCategory ("defai") = "defi" ∧
      mapCategory ("solana") = "solana" ∧ mapCategory ("ethereum") = "ethereum" ∧
      mapCategory ("bitcoin") = "bitcoin") ∧
    (∀ eco : String,
      categoryMap.find? (fun kv => kv.1 = eco) = none → mapCategory eco = eco) ∧
    (∀ (cat : String) (coin : Coin),
      coinMatchesCategory cat coin = true ↔
        ∃ c ∈ normalizedCategories coin, lowerStr c = lowerStr cat) ∧
    getEcosystemCoins (fun _ => Except.ok sixCoins) ("solana") 3 = Except.ok [solanaCoin] := by
  refine ⟨?_, ?_, ?_, ⟨rfl, rfl, rfl, rfl, rfl⟩, ?_, ?_, ?_⟩
  · intro f eco lim er h
    unfold getEcosystemCoins
    rw [h]
  · intro f eco lim cs h
    unfold getEcosystemCoins
    rw [h]
    exact ⟨rfl, List.length_take_le lim _,
      (List.take_sublist _ _).trans (List.filter_sublist cs)⟩
  · intro f g eco lim h
    unfold getEcosystemCoins
    rw [h]
  · intro eco h
    unfold mapCategory
    rw [h]
    rfl
  · intro cat coin
    unfold coinMatchesCategory normalizedCategories
    cases coin.categories with
    | absent => simp
    | clist cs => simp [List.any_eq_true]
    | cstr s =>
      by_cases hs : s = ""
      · simp [hs]
      · simp [hs, List.any_eq_true]
  · rfl

/-- Witness for C8 at concrete inputs: an erroring fetch propagates; the fixed six-coin
fetch filters down to the one solana-categorized coin. -/
theorem claim_C8_getEcosystemCoins_witness :
    (fun _ : Nat => (Except.error ⟨some 500, 9⟩ : Except NetErr (List Coin))) 200 =
      Except.error ⟨some 500, 9⟩ ∧
    getEcosystemCoins (fun _ => Except.error ⟨some 500, 9⟩) ("solana") 3 =
      Except.error ⟨some 500, 9⟩ ∧
    (fun _ : Nat => (Except.ok sixCoins : Except NetErr (List Coin))) 200 =
      Except.ok sixCoins ∧
    getEcosystemCoins (fun _ => Except.ok sixCoins) ("solana") 3 =
      Except.ok ((sixCoins.filter
        (fun c => coinMatchesCategory (mapCategory ("solana")) c)).take 3) :=
  ⟨rfl, claim_C8_getEcosystemCoins.1 _ ("solana") 3 _ rfl, rfl,
    (claim_C8_getEcosystemCoins.2.1 _ ("solana") 3 sixCoins rfl).1⟩

/-! ## Pipeline step invariant (network log and cache provenance) -/

theorem StepInv.rfl (p : Params) (st : St) : StepInv p st st :=
  ⟨⟨[], by simp⟩, fun _ hc => Or.inl hc, fun _ _ hm => Or.inl hm⟩

theorem StepInv.trans {p : Params} {st₁ st₂ st₃ : St}
    (h₁ : StepInv p st₁ st₂) (h₂ : StepInv p st₂ st₃) : StepInv p st₁ st₃ := by
  obtain ⟨⟨d₁, hd₁⟩, hp₁, hc₁⟩ := h₁
  obtain ⟨⟨d₂, hd₂⟩, hp₂, hc₂⟩ := h₂
  refine ⟨⟨d₁ ++ d₂, by rw [hd₂, hd₁, List.append_assoc]⟩, ?_, ?_⟩
  · intro c hc
    rcases hp₂ c hc with h | h | h
    · exact hp₁ c h
    · exact Or.inr (Or.inl h)
    · exact Or.inr (Or.inr h)
  · intro k v hm
    rcases hc₂ k v hm with h | ⟨c, hc, s, hres⟩
    · rcases hc₁ k v h with h' | ⟨c, hcm, s, hres⟩
      · exact Or.inl h'
      · refine Or.inr ⟨c, ?_, s, hres⟩
        rw [hd₂]
        exact List.mem_append_left _ hcm
    · exact Or.inr ⟨c, hc, s, hres⟩

theorem logCall_step (p : Params) (st : St) (u : String) (r : NetRes) :
    StepInv p st (logCall st u p r) := by
  refine ⟨⟨[⟨u, p, r⟩], rfl⟩, ?_, fun _ _ hm => Or.inl hm⟩
  intro c hc
  rcases List.mem_append.1 hc with h | h
  · exact Or.inl h
  · have he := List.mem_singleton.1 h
    subst he
    exact Or.inr (Or.inl rfl)

theorem detectApiTier_step (p : Params) (env : Env) (st : St) :
    StepInv p st (detectApiTier env st).2 := by
  refine ⟨?_, ?_, ?_⟩
  · rcases detectApiTier_netLog env st with h | h
    · exact ⟨[], by rw [h, List.append_nil]⟩
    · exact ⟨[⟨probeUrl, probeParams, env.net probeUrl probeParams⟩], h⟩
  · intro c hc
    rcases detectApiTier_netLog env st with h | h
    · rw [h] at hc
      exact Or.inl hc
    · rw [h] at hc
      rcases List.mem_append.1 hc with h' | h'
      · exact Or.inl h'
      · have he := List.mem_singleton.1 h'
        subst he
        exact Or.inr (Or.inr rfl)
  · intro k v hm
    rw [detectApiTier_cache env st] at hm
    exact Or.inl hm

theorem accessState_step (p : Params) (env : Env) (st : St) :
    StepInv p st (accessState env st) := by
  unfold accessState
  cases st.auth.apiTier with
  | some t => exact StepInv.rfl p st
  | none => exact detectApiTier_step p env st

theorem getFallbackDataF_step (inner : Params → St → Except NetErr Value × St) (env : Env)
    (e : String) (p : Params) (st : St)
    (hinner : ∀ s, StepInv p s (inner p s).2) :
    StepInv p st (getFallbackDataF inner env e p st).2 := by
  unfold getFallbackDataF
  split
  · rcases hR : inner p st with ⟨r, st'⟩
    have h := hinner st
    rw [hR] at h
    cases r with
    | ok v => exact h
    | error er => exact h
  · exact StepInv.rfl p st

theorem requestMiss_step (inner : Params → St → Except NetErr Value × St) (env : Env)
    (e : String) (p : Params) (st : St)
    (hinner : ∀ s, StepInv p s (inner p s).2) :
    StepInv p st (requestMiss inner env e p st).2 := by
  unfold requestMiss
  rw [canAccessEndpoint_eq]
  dsimp only
  have hstep₁ := accessState_step p env st
  split
  · exact hstep₁.trans (getFallbackDataF_step inner env e p _ hinner)
  · cases hres : env.net (baseUrl ++ e) p with
    | ok s d =>
      dsimp only
      refine hstep₁.trans ⟨⟨[⟨baseUrl ++ e, p, NetRes.ok s d⟩], rfl⟩, ?_, ?_⟩
      · intro c hc
        rcases List.mem_append.1 hc with h | h
        · exact Or.inl h
        · have he := List.mem_singleton.1 h
          subst he
          exact Or.inr (Or.inl rfl)
      · intro k v hm
        rcases List.mem_cons.1 hm with h | h
        · injection h with hk hv
          subst hv
          refine Or.inr ⟨⟨baseUrl ++ e, p, NetRes.ok s v⟩, ?_, s, rfl⟩
          exact List.mem_append_right _ (List.mem_singleton.2 rfl)
        · exact Or.inl h
    | err er =>
      dsimp only
      split
      · exact (hstep₁.trans (logCall_step p _ (baseUrl ++ e) (NetRes.err er))).trans
          (getFallbackDataF_step inner env e p _ hinner)
      · exact hstep₁.trans (logCall_step p _ (baseUrl ++ e) (NetRes.err er))

theorem makeRequestCore_step (inner : Params → St → Except NetErr Value × St) (env : Env)
    (e : String) (p : Params) (st : St)
    (hinner : ∀ s, StepInv p s (inner p s).2) :
    StepInv p st (makeRequestCore inner env e p st).2 := by
  unfold makeRequestCore
  cases h : cacheGet st.cache (cacheKey e p) with
  | none => exact requestMiss_step inner env e p st hinner
  | some v =>
    dsimp only
    split
    · exact StepInv.rfl p st
    · exact requestMiss_step inner env e p st hinner

theorem makeRequest_step (fuel : Nat) (env : Env) (e : String) (p : Params) (st : St) :
    StepInv p st (makeRequest fuel env e p st).2 := by
  induction fuel generalizing e p st with
  | zero =>
    rw [makeRequest]
    exact makeRequestCore_step _ env e p st (fun s => StepInv.rfl p s)
  | succ fuel ih =>
    rw [makeRequest]
    exact makeRequestCore_step _ env e p st (fun s => ih freeCoinsListEndpoint p s)

/-! ## Mock-answer cache purity -/

theorem getFallbackDataF_mockPure (inner : Params → St → Except NetErr Value × St)
    (env : Env) (e : String) (p : Params) (st : St)
    (hinnerErr : ∀ er, (inner p st).1 = Except.error er → (inner p st).2.cache = st.cache)
    (hinnerOk : ∀ v, (inner p st).1 = Except.ok v → isMockEnvelope v = true →
      (inner p st).2.cache = st.cache) :
    ∀ v, (getFallbackDataF inner env e p st).1 = Except.ok v → isMockEnvelope v = true →
      (getFallbackDataF inner env e p st).2.cache = st.cache := by
  intro v hok hmock
  unfold getFallbackDataF at hok ⊢
  by_cases hin : containsSub coinsListV2Marker e = true
  · rw [if_pos hin] at hok ⊢
    rcases hR : inner p st with ⟨r, st'⟩
    rw [hR] at hok
    cases r with
    | ok w =>
      have hw : w = v := by
        have : (Except.ok w : Except NetErr Value) = Except.ok v := hok
        injection this
      subst hw
      have h := hinnerOk w (by rw [hR]) hmock
      rw [hR] at h
      exact h
    | error er =>
      have h := hinnerErr er (by rw [hR])
      rw [hR] at h
      exact h
  · rw [if_neg hin] at hok
    rw [if_neg hin]

theorem requestMiss_mockPure (inner : Params → St → Except NetErr Value × St) (env : Env)
    (e : String) (p : Params) (st : St) (hclean : CleanNet env)
    (hinner : ∀ s,
      (∀ er, (inner p s).1 = Except.error er → (inner p s).2.cache = s.cache) ∧
      (∀ v, (inner p s).1 = Except.ok v → isMockEnvelope v = true →
        (inner p s).2.cache = s.cache)) :
    (∀ er, (requestMiss inner env e p st).1 = Except.error er →
      (requestMiss inner env e p st).2.cache = st.cache) ∧
    (∀ v, (requestMiss inner env e p st).1 = Except.ok v → isMockEnvelope v = true →
      (requestMiss inner env e p st).2.cache = st.cache) := by
  have hac := accessState_cache env st
  unfold requestMiss
  rw [canAccessEndpoint_eq]
  dsimp only
  split
  · constructor
    · intro er her
      obtain ⟨v, st', hok⟩ := getFallbackDataF_ok inner env e p (accessState env st)
      rw [hok] at her
      cases her
    · intro v hok hmock
      have h := getFallbackDataF_mockPure inner env e p (accessState env st)
        (hinner (accessState env st)).1 (hinner (accessState env st)).2 v hok hmock
      rw [h]
      exact hac
  · cases hres : env.net (baseUrl ++ e) p with
    | ok s d =>
      dsimp only
      constructor
      · intro er her
        cases her
      · intro v hok hmock
        injection hok with hv
        subst hv
        exact absurd hmock (by rw [hclean (baseUrl ++ e) p s d hres]; simp)
    | err er =>
      dsimp only
      have hlogc : (logCall (accessState env st) (baseUrl ++ e) p (NetRes.err er)).cache
          = st.cache := hac
      split
      · constructor
        · intro er' her
          obtain ⟨v, st', hok⟩ := getFallbackDataF_ok inner env e p
            (logCall (accessState env st) (baseUrl ++ e) p (NetRes.err er))
          rw [hok] at her
          cases her
        · intro v hok hmock
          have h := getFallbackDataF_mockPure inner env e p
            (logCall (accessState env st) (baseUrl ++ e) p (NetRes.err er))
            (hinner _).1 (hinner _).2 v hok hmock
          rw [h]
          exact hlogc
      · exact ⟨fun _ _ => hlogc, fun v hok _ => by cases hok⟩

theorem makeRequestCore_mockPure (inner : Params → St → Except NetErr Value × St)
    (env : Env) (e : String) (p : Params) (st : St) (hclean : CleanNet env)
    (hinner : ∀ s,
      (∀ er, (inner p s).1 = Except.error er → (inner p s).2.cache = s.cache) ∧
      (∀ v, (inner p s).1 = Except.ok v → isMockEnvelope v = true →
        (inner p s).2.cache = s.cache)) :
    (∀ er, (makeRequestCore inner env e p st).1 = Except.error er →
      (makeRequestCore inner env e p st).2.cache = st.cache) ∧
    (∀ v, (makeRequestCore inner env e p st).1 = Except.ok v → isMockEnvelope v = true →
      (makeRequestCore inner env e p st).2.cache = st.cache) := by
  unfold makeRequestCore
  cases h : cacheGet st.cache (cacheKey e p) with
  | none => exact requestMiss_mockPure inner env e p st hclean hinner
  | some v =>
    dsimp only
    split
    · exact ⟨fun _ her => (by cases her), fun _ _ _ => rfl⟩
    · exact requestMiss_mockPure inner env e p st hclean hinner

theorem makeRequest_mockPure (fuel : Nat) (env : Env) (e : String) (p : Params) (st : St)
    (hclean : CleanNet env) :
    (∀ er, (makeRequest fuel env e p st).1 = Except.error er →
      (makeRequest fuel env e p st).2.cache = st.cache) ∧
    (∀ v, (makeRequest fuel env e p st).1 = Except.ok v → isMockEnvelope v = true →
      (makeRequest fuel env e p st).2.cache = st.cache) := by
  induction fuel generalizing e p st with
  | zero =>
    rw [makeRequest]
    exact makeRequestCore_mockPure _ env e p st hclean
      (fun s => ⟨fun _ _ => rfl, fun v hok _ => by cases hok⟩)
  | succ fuel ih =>
    rw [makeRequest]
    exact makeRequestCore_mockPure _ env e p st hclean
      (fun s => ih freeCoinsListEndpoint p s)

/-- C10: only the bodies of successful HTTP responses are ever written to the cache —
every cache entry after a pipeline run is either inherited from the initial state or is
the body of some logged successful transport call; and (for an upstream that never
produces envelope-shaped bodies itself) a request answered with mock data
(`meta.using_mock_data = true`) leaves the cache exactly unchanged, so a subsequent
identical request misses the cache and runs the full pipeline again. -/
theorem claim_C10_cacheOnlySuccess :
    (∀ (fuel : Nat) (env : Env) (e : String) (p : Params) (st : St) (k : String)
        (v : Value),
      (k, v) ∈ (makeRequest fuel env e p st).2.cache →
      (k, v) ∈ st.cache ∨
        ∃ c ∈ (makeRequest fuel env e p st).2.netLog, ∃ s, c.res = NetRes.ok s v) ∧
    (∀ (env : Env) (e : String) (p : Params) (st : St) (v : Value),
      CleanNet env → (request env e p st).1 = Except.ok v → isMockEnvelope v = true →
      (request env e p st).2.cache = st.cache ∧
      cacheGet (request env e p st).2.cache (cacheKey e p) =
        cacheGet st.cache (cacheKey e p)) := by
  constructor
  · intro fuel env e p st k v hm
    exact (makeRequest_step fuel env e p st).cache_from k v hm
  · intro env e p st v hclean hok hmock
    have h : (request env e p st).2.cache = st.cache :=
      (makeRequest_mockPure 1 env e p st hclean).2 v hok hmock
    exact ⟨h, by rw [h]⟩

/-- Witness for C10's mock-answer clause at a concrete input (no credential: the request
is answered by the mock envelope and the cache stays empty). -/
theorem claim_C10_cacheOnlySuccess_witness :
    CleanNet envNoKey ∧
    (request envNoKey ("/public/topic/btc/v1") [] stInit).1 =
      Except.ok (mkEnvelope envNoKey ("/public/topic/btc/v1") []) ∧
    isMockEnvelope (mkEnvelope envNoKey ("/public/topic/btc/v1") []) = true ∧
    (request envNoKey ("/public/topic/btc/v1") [] stInit).2.cache = stInit.cache :=
  have hclean : CleanNet envNoKey := fun _ _ _ _ h => by cases h
  ⟨hclean, rfl, rfl,
    (claim_C10_cacheOnlySuccess.2 envNoKey ("/public/topic/btc/v1") [] stInit
      (mkEnvelope envNoKey ("/public/topic/btc/v1") []) hclean rfl rfl).1⟩

/-! ## `getTopicSentiment` ignores `days` -/

theorem getTopicSentiment_snd (env : Env) (topic : String) (days : Nat) (st : St) :
    (getTopicSentiment env topic days st).2 = (request env (topicPath topic) [] st).2 := by
  unfold getTopicSentiment
  rcases h : request env (topicPath topic) [] st with ⟨r, st'⟩
  rfl

/-- C9: `getTopicSentiment` is entirely independent of its `days` argument — for any two
values the whole outcome (result and final state, including the transport log) is
identical — and the upstream request it issues carries no query parameter at all (its
pipeline only ever logs calls with the empty parameter object or the tier probe's
`{limit: 1}`), so no parameter derived from `days` is forwarded. -/
theorem claim_C9_daysIgnored :
    (∀ (env : Env) (topic : String) (st : St) (d₁ d₂ : Nat),
      getTopicSentiment env topic d₁ st = getTopicSentiment env topic d₂ st) ∧
    (∀ (env : Env) (topic : String) (days : Nat) (st : St),
      ∀ c ∈ (getTopicSentiment env topic days st).2.netLog,
        c ∈ st.netLog ∨ c.params = [] ∨ c.params = probeParams) := by
  refine ⟨fun env topic st d₁ d₂ => rfl, ?_⟩
  intro env topic days st c hc
  rw [getTopicSentiment_snd] at hc
  exact (makeRequest_step 1 env (topicPath topic) [] st).log_params c hc

/-- Witness for C9 at a concrete input (the logged call of a topic request carries the
empty parameter object). -/
theorem claim_C9_daysIgnored_witness :
    getTopicSentiment envRate429 ("btc") 7 stPaid =
      getTopicSentiment envRate429 ("btc") 9 stPaid ∧
    (⟨baseUrl ++ topicPath ("btc"), [], NetRes.err ⟨some 429, 3⟩⟩ : NetCall) ∈
      (getTopicSentiment envRate429 ("btc") 7 stPaid).2.netLog ∧
    ((⟨baseUrl ++ topicPath ("btc"), [], NetRes.err ⟨some 429, 3⟩⟩ : NetCall) ∈
        stPaid.netLog ∨
      (⟨baseUrl ++ topicPath ("btc"), [], NetRes.err ⟨some 429, 3⟩⟩ : NetCall).params = [] ∨
      (⟨baseUrl ++ topicPath ("btc"), [], NetRes.err ⟨some 429, 3⟩⟩ : NetCall).params =
        probeParams) :=
  ⟨claim_C9_daysIgnored.1 envRate429 ("btc") stPaid 7 9,
    List.mem_singleton.2 rfl,
    claim_C9_daysIgnored.2 envRate429 ("btc") 7 stPaid _ (List.mem_singleton.2 rfl)⟩

/-- Witness for C1 (amended) at a concrete input. -/
theorem claim_C1_deniedTier_witness :
    truthyHit stInit.cache (cacheKey ("/public/topic/btc/v1") []) = false ∧
    (accessState envNoKey stInit).auth.apiTier = some Tier.invalid ∧
    ∃ v, request envNoKey ("/public/topic/btc/v1") [] stInit =
        (Except.ok v, accessState envNoKey stInit) ∧
      (accessState envNoKey stInit).cache = stInit.cache ∧
      ((accessState envNoKey stInit).netLog = stInit.netLog ∨
        (accessState envNoKey stInit).netLog = stInit.netLog ++
          [⟨probeUrl, probeParams, envNoKey.net probeUrl probeParams⟩]) :=
  ⟨by decide, rfl,
    claim_C1_deniedTier envNoKey ("/public/topic/btc/v1") [] stInit (by decide)
      (Or.inl rfl)⟩

end LunarCrush
